import Mathlib

/-!
Verification of the evaluation-and-aggregation core of `utils/trainAndTest.js`
(the limdu classifier-evaluation utilities).

The JavaScript module is shallowly embedded: the JavaScript values that occur
as labels and label collections in the evaluation protocol are modelled by
`JsScalar` (strings, numbers, booleans) and `JsVal` (a scalar, or an array of
scalars); the default `Array.prototype.sort` on string arrays is modelled by
`jsSort` (lexicographic order on the code points of the characters, the
code-unit order JavaScript uses for strings); each exported function of the
module becomes a Lean function of the same name.  Console output is modelled
as a returned list of lines.  The `PrecisionRecall` accumulator
(`utils/PrecisionRecall.js`) is not among the analysed sources; it is
modelled from the specification's interface contract for the Outcome
Recorder.
-/

namespace Limdu

/-- A scalar JavaScript value that can occur as a single label. -/
inductive JsScalar where
  | sstr : String → JsScalar
  | snum : Int → JsScalar
  | sbool : Bool → JsScalar
deriving DecidableEq

/-- A JavaScript value as fed to `normalizeClasses` and carried as a sample
input: a scalar, or an array of scalars.  (Deeper nesting does not occur in
the evaluation protocol.) -/
inductive JsVal where
  | scalar : JsScalar → JsVal
  | varr : List JsScalar → JsVal
deriving DecidableEq

/-- Model of `JSON.stringify` on scalars (whitespace-free form; string
escaping is not modelled, only determinism matters below). -/
def jsonScalar : JsScalar → String
  | .sstr s => "\x22" ++ s ++ "\x22"
  | .snum n => toString n
  | .sbool b => if b then "true" else "false"

/-- Model of `JSON.stringify` on `JsVal`. -/
def jsonStringify : JsVal → String
  | .scalar s => jsonScalar s
  | .varr xs => "[" ++ String.intercalate "," (xs.map jsonScalar) ++ "]"

/-- Model of JavaScript string coercion (`"" + v`) on scalars. -/
def coerceScalar : JsScalar → String
  | .sstr s => s
  | .snum n => toString n
  | .sbool b => if b then "true" else "false"

/-- Model of JavaScript string coercion (`"" + v`): strings stay bare,
arrays join their coerced elements with commas. -/
def jsCoerceString : JsVal → String
  | .scalar s => coerceScalar s
  | .varr xs => String.intercalate "," (xs.map coerceScalar)

/-- `stringifyClass` (trainAndTest.js:155-157): a label that is already a
string is kept as-is, any other label is replaced by its JSON serialization. -/
def stringifyClass : JsScalar → String
  | .sstr s => s
  | v => jsonScalar v

/-- JavaScript coercion of an array of strings (`"" + arr`): comma-joined. -/
def joinComma (xs : List String) : String :=
  String.intercalate "," xs

/-- Lexicographic comparison of character sequences by code point; the order
used by the default JavaScript `Array.prototype.sort` on strings. -/
def lexLeB : List Char → List Char → Bool
  | [], _ => true
  | _ :: _, [] => false
  | a :: as, b :: bs =>
    if a.toNat < b.toNat then true
    else if b.toNat < a.toNat then false
    else lexLeB as bs

/-- The string order induced by `lexLeB`. -/
def strLe (a b : String) : Prop :=
  lexLeB a.data b.data = true

instance : DecidableRel strLe :=
  fun a b => Bool.decEq (lexLeB a.data b.data) true

theorem lexLeB_total : ∀ as bs : List Char, lexLeB as bs = true ∨ lexLeB bs as = true
  | [], _ => Or.inl rfl
  | _ :: _, [] => Or.inr rfl
  | a :: as, b :: bs => by
    by_cases hab : a.toNat < b.toNat
    · exact Or.inl (by simp [lexLeB, hab])
    · by_cases hba : b.toNat < a.toNat
      · exact Or.inr (by simp [lexLeB, hba])
      · rcases lexLeB_total as bs with h | h
        · exact Or.inl (by simp [lexLeB, hab, hba, h])
        · exact Or.inr (by simp [lexLeB, hab, hba, h])

theorem lexLeB_trans : ∀ as bs cs : List Char,
    lexLeB as bs = true → lexLeB bs cs = true → lexLeB as cs = true
  | [], _, _, _, _ => rfl
  | _ :: _, [], _, h, _ => by simp [lexLeB] at h
  | _ :: _, _ :: _, [], _, h => by simp [lexLeB] at h
  | a :: as, b :: bs, c :: cs, h₁, h₂ => by
    by_cases hab : a.toNat < b.toNat
    · by_cases hbc : b.toNat < c.toNat
      · simp [lexLeB, Nat.lt_trans hab hbc]
      · by_cases hcb : c.toNat < b.toNat
        · simp [lexLeB, hbc, hcb] at h₂
        · have hbc' : b.toNat = c.toNat :=
            Nat.le_antisymm (Nat.le_of_not_lt hcb) (Nat.le_of_not_lt hbc)
          simp [lexLeB, hbc' ▸ hab]
    · by_cases hba : b.toNat < a.toNat
      · simp [lexLeB, hab, hba] at h₁
      · have hab' : a.toNat = b.toNat :=
          Nat.le_antisymm (Nat.le_of_not_lt hba) (Nat.le_of_not_lt hab)
        by_cases hbc : b.toNat < c.toNat
        · simp [lexLeB, hab' ▸ hbc]
        · by_cases hcb : c.toNat < b.toNat
          · simp [lexLeB, hbc, hcb] at h₂
          · have h₁' := h₁
            have h₂' := h₂
            simp [lexLeB, hab, hba] at h₁'
            simp [lexLeB, hbc, hcb] at h₂'
            have hac : ¬ a.toNat < c.toNat := by omega
            have hca : ¬ c.toNat < a.toNat := by omega
            simp [lexLeB, hac, hca, lexLeB_trans as bs cs h₁' h₂']

theorem char_eq_of_toNat_eq {a b : Char} (h : a.toNat = b.toNat) : a = b :=
  Char.ext (UInt32.ext h)

theorem lexLeB_antisymm : ∀ as bs : List Char,
    lexLeB as bs = true → lexLeB bs as = true → as = bs
  | [], [], _, _ => rfl
  | [], _ :: _, _, h => by simp [lexLeB] at h
  | _ :: _, [], h, _ => by simp [lexLeB] at h
  | a :: as, b :: bs, h₁, h₂ => by
    by_cases hab : a.toNat < b.toNat
    · simp [lexLeB, hab, Nat.lt_asymm hab] at h₂
    · by_cases hba : b.toNat < a.toNat
      · simp [lexLeB, hab, hba] at h₁
      · have hab' : a.toNat = b.toNat :=
          Nat.le_antisymm (Nat.le_of_not_lt hba) (Nat.le_of_not_lt hab)
        have h₁' := h₁
        have h₂' := h₂
        simp [lexLeB, hab, hba] at h₁'
        simp [lexLeB, hba, hab] at h₂'
        rw [char_eq_of_toNat_eq hab', lexLeB_antisymm as bs h₁' h₂']

instance : IsTotal String strLe :=
  ⟨fun a b => lexLeB_total a.data b.data⟩

instance : IsTrans String strLe :=
  ⟨fun a b c => lexLeB_trans a.data b.data c.data⟩

instance : IsAntisymm String strLe :=
  ⟨fun a b h₁ h₂ => by
    have h := lexLeB_antisymm a.data b.data h₁ h₂
    cases a
    cases b
    simp_all [String.data]⟩

/-- The default JavaScript `Array.prototype.sort` on an array of strings:
the lexicographically sorted permutation of the array. -/
def jsSort (l : List String) : List String :=
  List.insertionSort strLe l

theorem jsSort_perm (l : List String) : (jsSort l).Perm l :=
  List.perm_insertionSort strLe l

theorem jsSort_sorted (l : List String) : List.Sorted strLe (jsSort l) :=
  List.sorted_insertionSort strLe l

theorem jsSort_eq_of_perm {l l' : List String} (h : l.Perm l') : jsSort l = jsSort l' :=
  List.eq_of_perm_of_sorted ((jsSort_perm l).trans (h.trans (jsSort_perm l').symm))
    (jsSort_sorted l) (jsSort_sorted l')

theorem jsSort_of_sorted {l : List String} (h : List.Sorted strLe l) : jsSort l = l :=
  List.eq_of_perm_of_sorted (jsSort_perm l) (jsSort_sorted l) h

theorem jsSort_idem (l : List String) : jsSort (jsSort l) = jsSort l :=
  jsSort_of_sorted (jsSort_sorted l)

/-- `normalizeClasses` (trainAndTest.js:159-165): wrap a non-array value in a
one-element array, map every element through `stringifyClass`, sort. -/
def normalizeClasses (expectedClasses : JsVal) : List String :=
  let arr : List JsScalar :=
    match expectedClasses with
    | .varr xs => xs
    | .scalar s => [s]
  jsSort (arr.map stringifyClass)

/-- The result of `classifier.classify`: either a bare array of class labels,
or a richer object carrying a `classes` array and an `explanations` payload
(`plain cs` stands for the JavaScript array `cs` itself, `explained cs e` for
the object whose `classes` field is `cs` and whose `explanations` field is
`e`). -/
inductive ClassificationResult where
  | plain : List String → ClassificationResult
  | explained : List String → JsVal → ClassificationResult
deriving DecidableEq

/-- A dataset sample: `(input, output)` as in trainAndTest.js. -/
structure Sample where
  input : JsVal
  output : JsVal
deriving DecidableEq

/-- Modelled from the spec: the Outcome Recorder (`utils/PrecisionRecall.js`,
whose source is not among the analysed files).  Per the interface contract it
ingests (expected, actual) pairs and produces aggregate statistics on demand;
per the specification its per-case accumulation is order-independent, so the
accumulated outcomes are modelled as a multiset. -/
structure PrecisionRecall where
  recorded : Multiset (List String × ClassificationResult)
  finalized : Bool
deriving DecidableEq

/-- A freshly constructed accumulator (`new PrecisionRecall()`). -/
def PrecisionRecall.init : PrecisionRecall :=
  ⟨0, false⟩

/-- Modelled from the spec: the per-case explanation lines returned by the
recorder when explanations are requested.  The contract fixes only that some
human-readable lines are returned on request; the concrete text is chosen
arbitrarily but deterministically. -/
def mkExplanations (expected : List String) (actual : ClassificationResult) : List String :=
  if actual = ClassificationResult.plain expected then [] else ["case explanation"]

/-- Modelled from the spec: `addCases(expected, actual, wantExplanations?)`
records the pair into the accumulator and returns the per-case explanation
lines when requested, the empty sequence otherwise. -/
def addCases (pr : PrecisionRecall) (expected : List String) (actual : ClassificationResult)
    (wantExplanations : Bool) : PrecisionRecall × List String :=
  ({ pr with recorded := (expected, actual) ::ₘ pr.recorded },
   if wantExplanations then mkExplanations expected actual else [])

/-- Modelled from the spec: `calculateStats` finalizes the accumulator and
returns it for chaining. -/
def calculateStats (pr : PrecisionRecall) : PrecisionRecall :=
  { pr with finalized := true }

/-- Modelled from the spec: `shortStats` renders a one-line summary of the
aggregate statistics. -/
def shortStats (pr : PrecisionRecall) : String :=
  toString (Multiset.card pr.recorded) ++ " cases"

/-- Modelled from the spec: `fullStats` returns the structured summary of the
accumulated outcomes. -/
def fullStats (pr : PrecisionRecall) : Multiset (List String × ClassificationResult) :=
  pr.recorded

/-- Modelled from the spec: `hash.add(macroSum, summary)` additively merges a
finalized summary into a caller-owned accumulator (macro-sum). -/
def hashAdd (pr : PrecisionRecall) (summary : Multiset (List String × ClassificationResult)) :
    PrecisionRecall :=
  { pr with recorded := pr.recorded + summary }

/-- The tab character used by the module's diagnostic lines. -/
def tabStr : String :=
  "\t"

/-- The newline character used by the module's diagnostic lines. -/
def nlStr : String :=
  "\n"

/-- The summary-line marker (`"SUMMARY: "`). -/
def summaryPre : String :=
  "SUMMARY: "

/-- The header printed before the full statistics (`"FULL RESULTS:"`). -/
def fullResultsHeader : String :=
  "FULL RESULTS:"

/-- Modelled rendering of `console.dir(currentStats.fullStats())`; the
concrete text is presentation-only. -/
def dirLine (pr : PrecisionRecall) : String :=
  "full stats over " ++ toString (Multiset.card pr.recorded) ++ " cases"

/-- Modelled rendering of `JSON.stringify(result, null, "\t")` on a
classification result (object braces elided; only determinism matters). -/
def renderCR : ClassificationResult → String
  | .plain cs => jsonStringify (.varr (cs.map JsScalar.sstr))
  | .explained cs e =>
    "(classes=" ++ jsonStringify (.varr (cs.map JsScalar.sstr)) ++
      ";explanations=" ++ jsonStringify e ++ ")"

/-- The per-sample loop of `test` (trainAndTest.js:53-60): normalize the
expected output, classify the input (no explain argument is passed), record
the raw result into the running accumulator (requesting explanations when
`verbosity > 2`), emit a diagnostic line when `verbosity > 1` and
explanations were produced, and record the same pair into the optional
`microAverage` accumulator. -/
def testLoop (classify : JsVal → Option Int → ClassificationResult) (verbosity : Int) :
    List Sample → PrecisionRecall → Option PrecisionRecall →
      PrecisionRecall × Option PrecisionRecall × List String
  | [], stats, micro => (stats, micro, [])
  | s :: rest, stats, micro =>
    let expectedClasses := normalizeClasses s.output
    let actualClasses := classify s.input none
    let step := addCases stats expectedClasses actualClasses (decide (verbosity > 2))
    let lines :=
      if verbosity > 1 ∧ step.2 ≠ [] then
        [tabStr ++ jsCoerceString s.input ++ ": \n" ++ String.intercalate nlStr step.2]
      else []
    let micro' := micro.map fun m => (addCases m expectedClasses actualClasses false).1
    let r := testLoop classify verbosity rest step.1 micro'
    (r.1, r.2.1, lines ++ r.2.2)

/-- `test` (trainAndTest.js:49-72).  Returns the finalized local accumulator,
the updated `microAverage` and `macroSum` accumulators, and the emitted
console lines. -/
def test (classify : JsVal → Option Int → ClassificationResult) (testSet : List Sample)
    (verbosity : Int) (microAverage macroSum : Option PrecisionRecall) :
    PrecisionRecall × Option PrecisionRecall × Option PrecisionRecall × List String :=
  let r := testLoop classify verbosity testSet PrecisionRecall.init microAverage
  let currentStats := calculateStats r.1
  let macroOut := macroSum.map fun m => hashAdd m (fullStats currentStats)
  let tailLines :=
    if verbosity > 0 then
      (if verbosity > 2 then [fullResultsHeader, dirLine currentStats] else []) ++
        [summaryPre ++ shortStats currentStats]
    else []
  (currentStats, r.2.1, macroOut, r.2.2 ++ tailLines)

/-- `testLite`'s unwrapping (trainAndTest.js:31):
`result.classes ? result.classes : result`.  The `classes` field of an
explained result is an array and therefore truthy in JavaScript; a bare
array has no `classes` field (undefined, falsy), so the array itself is
used. -/
def unwrapLite : ClassificationResult → List String
  | .plain cs => cs
  | .explained cs _ => cs

/-- The mismatch line printed by `testLite` (trainAndTest.js:34): the
JSON-serialized input, the comma-joined expected classes, and either the
full result payload (when `explain` is truthy) or the comma-joined sorted
actual classes. -/
def liteMismatchLine (explain : Int) (input : JsVal) (expected : List String)
    (actualCWE : ClassificationResult) (actualSorted : List String) : String :=
  tabStr ++ jsonStringify input ++ ": expected " ++ joinComma expected ++ " but got " ++
    (if explain ≠ 0 then renderCR actualCWE else joinComma actualSorted)

/-- The per-sample loop of `testLite` (trainAndTest.js:28-38). -/
def testLiteLoop (classify : JsVal → Option Int → ClassificationResult) (explain : Int) :
    List Sample → PrecisionRecall → PrecisionRecall × List String
  | [], stats => (stats, [])
  | s :: rest, stats =>
    let expectedClasses := normalizeClasses s.output
    let actualCWE := classify s.input (some explain)
    let actualClasses := jsSort (unwrapLite actualCWE)
    let lines :=
      if expectedClasses = actualClasses then []
      else [liteMismatchLine explain s.input expectedClasses actualCWE actualClasses]
    let stats' := (addCases stats expectedClasses (.plain actualClasses) false).1
    let r := testLiteLoop classify explain rest stats'
    (r.1, lines ++ r.2)

/-- `testLite` (trainAndTest.js:26-39).  Returns the (finalized) local
accumulator and the emitted console lines. -/
def testLite (classify : JsVal → Option Int → ClassificationResult) (dataset : List Sample)
    (explain : Int) : PrecisionRecall × List String :=
  let r := testLiteLoop classify explain dataset PrecisionRecall.init
  let statsF := calculateStats r.1
  (statsF, r.2 ++ [summaryPre ++ shortStats statsF])

/-- `compare`'s unwrapping (trainAndTest.js:85-86):
`explain ? result.classes : result`.  With a truthy `explain`, a bare array
has no `classes` field, so the subsequent `.sort()` throws (modelled as
`none`); with a falsy `explain`, an explained object is not an array, so
`.sort()` throws as well. -/
def unwrapCompare (explain : Int) : ClassificationResult → Option (List String)
  | .plain cs => if explain ≠ 0 then none else some cs
  | .explained cs _ => if explain ≠ 0 then some cs else none

/-- Verdict line `"\t\tClassifier1 is correct"` (trainAndTest.js:96). -/
def classifier1CorrectLine : String :=
  tabStr ++ tabStr ++ "Classifier1 is correct"

/-- Verdict line `"\t\tClassifier2 is correct"` (trainAndTest.js:98). -/
def classifier2CorrectLine : String :=
  tabStr ++ tabStr ++ "Classifier2 is correct"

/-- Verdict line `"\t\tboth are incorrect"` (trainAndTest.js:100). -/
def bothIncorrectLine : String :=
  tabStr ++ tabStr ++ "both are incorrect"

/-- The divergence line printed by `compare` (trainAndTest.js:90-93). -/
def divergenceLine (explain : Int) (input : JsVal) (r1 r2 : ClassificationResult)
    (s1 s2 : List String) : String :=
  tabStr ++ jsonStringify input ++ " : classes1=" ++
    (if explain ≠ 0 then renderCR r1 else joinComma s1) ++ " ; classes2=" ++
    (if explain ≠ 0 then renderCR r2 else joinComma s2)

/-- The per-sample body of `compare` (trainAndTest.js:82-102): unwrap both
results, sort both class sequences, and when they differ print the
divergence line followed by exactly one verdict line. -/
def compareSample (explain : Int) (expectedClasses : List String) (input : JsVal)
    (r1 r2 : ClassificationResult) : Option (List String) :=
  match unwrapCompare explain r1, unwrapCompare explain r2 with
  | some c1, some c2 =>
    let s1 := jsSort c1
    let s2 := jsSort c2
    if s1 = s2 then some []
    else
      some [divergenceLine explain input r1 r2 s1 s2,
        if s1 = expectedClasses then classifier1CorrectLine
        else if s2 = expectedClasses then classifier2CorrectLine
        else bothIncorrectLine]
  | _, _ => none

/-- The loop of `compare` over the dataset; `none` models an exception
aborting the run. -/
def compareLoop (classify1 classify2 : JsVal → Option Int → ClassificationResult)
    (explain : Int) : List Sample → Option (List String)
  | [] => some []
  | s :: rest =>
    match compareSample explain (normalizeClasses s.output) s.input
        (classify1 s.input (some explain)) (classify2 s.input (some explain)) with
    | none => none
    | some lines => (compareLoop classify1 classify2 explain rest).map fun ls => lines ++ ls

/-- `compare` (trainAndTest.js:79-103).  Returns only the emitted console
lines (the function has no aggregate return value). -/
def compare (classify1 classify2 : JsVal → Option Int → ClassificationResult)
    (dataset : List Sample) (explain : Int) : Option (List String) :=
  compareLoop classify1 classify2 explain dataset

/-- A classifier factory as consumed by the orchestrators: the factory call
plus `trainBatch` are collapsed into a function from the training batch to
the trained classifier's `classify` method (classifier internals are an
external collaborator). -/
structure ClassifierFactory where
  trainedClassify : List Sample → JsVal → Option Int → ClassificationResult

/-- The training-phase diagnostics of `trainAndCompare`
(trainAndTest.js:138-148), printed when `verbosity > 0`.  The optional
`allClasses` annotation and the wall-clock elapsed time are elided (real
time is not modelled). -/
def trainingDiagnostics (verbosity : Int) (n : Nat) : List String :=
  if verbosity > 0 then
    ["start training on " ++ toString n ++ " samples", "end training on " ++ toString n ++ " samples"]
  else []

/-- `trainAndCompare` (trainAndTest.js:131-152): train both classifiers on
the training set, then delegate to `compare` with `verbosity` passed as the
`explain` argument.  Returns the training diagnostics and `compare`'s
result. -/
def trainAndCompare (f1 f2 : ClassifierFactory) (trainSet testSet : List Sample)
    (verbosity : Int) : List String × Option (List String) :=
  let classifier1 := f1.trainedClassify trainSet
  let classifier2 := f2.trainedClassify trainSet
  (trainingDiagnostics verbosity trainSet.length ++ trainingDiagnostics verbosity trainSet.length,
   compare classifier1 classifier2 testSet verbosity)

/-!
Heap model for the in-place effects of the module.  JavaScript's
`Array.prototype.sort` mutates its receiver, while `Array.prototype.map`
allocates a fresh array.  Arrays of class labels live in a store; a
reference is an index into the store.
-/

/-- A reference to an array in the store. -/
abbrev ArrRef := Nat

/-- The heap: the string arrays currently allocated, indexed by `ArrRef`. -/
abbrev Store := List (List String)

/-- The string branch of `stringifyClass`: a string label is kept as-is
(`map(stringifyClass)` still allocates a fresh array for the results). -/
def stringifyStr (s : String) : String :=
  s

/-- A classification result at heap level: a bare array reference, or an
object whose `classes` field holds an array reference. -/
inductive HResult where
  | plain : ArrRef → HResult
  | explained : ArrRef → HResult
deriving DecidableEq

/-- The array reference a result carries (the bare array itself, or the
`classes` field). -/
def hClassesOf : HResult → ArrRef
  | .plain r => r
  | .explained r => r

/-- In-place `arr.sort()`: the store cell is overwritten with its sorted
contents; the reference is unchanged. -/
def sortInPlace (st : Store) (r : ArrRef) : Store :=
  st.set r (jsSort (st.getD r []))

/-- The heap effect of testLite's lines 31-32: unwrap the classes array of
the classifier's result and sort it in place. -/
def testLiteSortStep (st : Store) (res : HResult) : Store × ArrRef :=
  (sortInPlace st (hClassesOf res), hClassesOf res)

/-- The heap-level unwrapping of `compare` (explain-flag driven, as in
trainAndTest.js:85-86); `none` models the `.sort()` type error on the
mismatched shape. -/
def hUnwrapCompare (explainT : Bool) : HResult → Option ArrRef
  | .plain r => if explainT then none else some r
  | .explained r => if explainT then some r else none

/-- The heap effect of compare's lines 85-88: unwrap both results and sort
both class arrays in place. -/
def compareSortSteps (explainT : Bool) (st : Store) (res1 res2 : HResult) :
    Option (Store × ArrRef × ArrRef) :=
  match hUnwrapCompare explainT res1, hUnwrapCompare explainT res2 with
  | some r1, some r2 => some (sortInPlace (sortInPlace st r1) r2, r1, r2)
  | _, _ => none

/-- A heap-level argument to `normalizeClasses`: a scalar (string) label or
a reference to an array of string labels. -/
inductive HVal where
  | scalar : String → HVal
  | array : ArrRef → HVal
deriving DecidableEq

/-- The heap effect of `normalizeClasses` (trainAndTest.js:159-165): read
the argument's elements (or wrap the scalar), `.map` them into a freshly
allocated array, sort that fresh array in place, and return its reference.
The argument array is never written. -/
def normalizeClassesH (st : Store) (v : HVal) : Store × ArrRef :=
  let elems : List String :=
    match v with
    | .array r => st.getD r []
    | .scalar s => [s]
  (st ++ [jsSort (elems.map stringifyStr)], st.length)

/-!
Concrete classifiers, samples and factories used in the witnesses below.
-/

/-- A classifier that always answers with an explained result. -/
def cexClassify : JsVal → Option Int → ClassificationResult :=
  fun _ _ => .explained ["A"] (.scalar (.snum 1))

/-- A one-sample test set with expected output `"A"`. -/
def cexSample : Sample :=
  ⟨.scalar (.sstr "x"), .scalar (.sstr "A")⟩

/-- A second sample with expected output `"B"`. -/
def cexSample2 : Sample :=
  ⟨.scalar (.sstr "y"), .scalar (.sstr "B")⟩

/-- A classifier that always answers `["A"]`. -/
def wClassify : JsVal → Option Int → ClassificationResult :=
  fun _ _ => .plain ["A"]

/-- A factory whose trained classifier always answers `["A"]`. -/
def wFactory : ClassifierFactory :=
  ⟨fun _ _ _ => .plain ["A"]⟩

/-!
Characterization lemmas for `test`'s accumulation.
-/

theorem testLoop_fst (classify : JsVal → Option Int → ClassificationResult) (v : Int) :
    ∀ (l : List Sample) (stats : PrecisionRecall) (micro : Option PrecisionRecall),
      (testLoop classify v l stats micro).1 =
        ⟨stats.recorded + ↑(l.map fun s => (normalizeClasses s.output, classify s.input none)),
          stats.finalized⟩
  | [], stats, micro => by
    simp [testLoop]
  | s :: rest, stats, micro => by
    simp only [testLoop, addCases, List.map_cons]
    rw [testLoop_fst classify v rest _ _]
    simp only [← Multiset.cons_coe, ← Multiset.singleton_add]
    congr 1
    rw [add_assoc, add_left_comm]

theorem testLoop_micro (classify : JsVal → Option Int → ClassificationResult) (v : Int) :
    ∀ (l : List Sample) (stats : PrecisionRecall) (micro : Option PrecisionRecall),
      (testLoop classify v l stats micro).2.1 =
        micro.map fun m =>
          ⟨m.recorded + ↑(l.map fun s => (normalizeClasses s.output, classify s.input none)),
            m.finalized⟩
  | [], stats, micro => by
    cases micro <;> simp [testLoop]
  | s :: rest, stats, micro => by
    cases micro with
    | none =>
      simp only [testLoop, Option.map_none']
      rw [testLoop_micro classify v rest _ none]
      simp
    | some m =>
      simp only [testLoop, addCases, Option.map_some', List.map_cons]
      rw [testLoop_micro classify v rest _ _]
      simp only [Option.map_some', Option.some.injEq]
      simp only [← Multiset.cons_coe, ← Multiset.singleton_add]
      congr 1
      rw [add_assoc, add_left_comm]

theorem test_stats (classify : JsVal → Option Int → ClassificationResult) (testSet : List Sample)
    (v : Int) (micro macroSum : Option PrecisionRecall) :
    (test classify testSet v micro macroSum).1 =
      ⟨↑(testSet.map fun s => (normalizeClasses s.output, classify s.input none)), true⟩ := by
  simp [test, calculateStats, testLoop_fst, PrecisionRecall.init]

theorem test_micro (classify : JsVal → Option Int → ClassificationResult) (testSet : List Sample)
    (v : Int) (micro macroSum : Option PrecisionRecall) :
    (test classify testSet v micro macroSum).2.1 =
      micro.map fun m =>
        ⟨m.recorded + ↑(testSet.map fun s => (normalizeClasses s.output, classify s.input none)),
          m.finalized⟩ := by
  simp [test, testLoop_micro]

theorem test_macroSum (classify : JsVal → Option Int → ClassificationResult) (testSet : List Sample)
    (v : Int) (micro macroSum : Option PrecisionRecall) :
    (test classify testSet v micro macroSum).2.2.1 =
      macroSum.map fun m =>
        ⟨m.recorded + ↑(testSet.map fun s => (normalizeClasses s.output, classify s.input none)),
          m.finalized⟩ := by
  simp [test, testLoop_fst, hashAdd, fullStats, calculateStats, PrecisionRecall.init]

/-- C5: label normalization is idempotent — for every input (scalar label or
collection of labels), normalizing the normalized label set (fed back to
`normalizeClasses` as an array of strings) yields the same set. -/
theorem normalizeClasses_idempotent (x : JsVal) :
    normalizeClasses (.varr ((normalizeClasses x).map JsScalar.sstr)) = normalizeClasses x := by
  unfold normalizeClasses
  simp only [List.map_map]
  have hmap : stringifyClass ∘ JsScalar.sstr = fun s : String => s := by
    funext s
    rfl
  rw [hmap, List.map_id']
  exact jsSort_idem _

/-- C6: label normalization is order-insensitive on its input and
deterministic on its output — for every label collection and every
permutation of it, `normalizeClasses` yields the identical sequence, and
that sequence is sorted. -/
theorem normalizeClasses_perm_invariant (l l' : List JsScalar) (h : l.Perm l') :
    normalizeClasses (.varr l') = normalizeClasses (.varr l) ∧
      List.Sorted strLe (normalizeClasses (.varr l)) :=
  ⟨jsSort_eq_of_perm (h.symm.map stringifyClass), jsSort_sorted _⟩

/-- Witness for C6 at a concrete permuted pair of label collections. -/
theorem normalizeClasses_perm_invariant_witness :
    ([JsScalar.sstr "a", JsScalar.sstr "b"] : List JsScalar).Perm
        [JsScalar.sstr "b", JsScalar.sstr "a"] ∧
      normalizeClasses (.varr [JsScalar.sstr "b", JsScalar.sstr "a"]) =
        normalizeClasses (.varr [JsScalar.sstr "a", JsScalar.sstr "b"]) ∧
      normalizeClasses (.varr [JsScalar.sstr "a", JsScalar.sstr "b"]) = ["a", "b"] :=
  ⟨List.Perm.swap _ _ _,
    (normalizeClasses_perm_invariant _ _ (List.Perm.swap _ _ _)).1,
    by decide⟩

/-- C1 (counterexample): on an empty test set, `test` is not silent at every
verbosity — at verbosity 1 it still prints the summary line, so the claim
"no diagnostic output regardless of verbosity" fails. -/
theorem test_empty_prints_at_verbosity_one :
    (test wClassify [] 1 none none).2.2.2 ≠ [] := by
  decide

/-- C1 (amended): on an empty test set, `test` returns a finalized
accumulator with zero recorded cases, leaves the micro/macro accumulators
unchanged, and emits no per-sample diagnostics; the summary line (and, above
verbosity 2, the full-results lines) is still printed whenever
`verbosity > 0`, and nothing is printed otherwise. -/
theorem test_empty_spec (classify : JsVal → Option Int → ClassificationResult) (v : Int)
    (micro macroSum : Option PrecisionRecall) :
    test classify [] v micro macroSum =
      (⟨0, true⟩, micro, macroSum,
        if v > 0 then
          (if v > 2 then [fullResultsHeader, dirLine ⟨0, true⟩] else []) ++
            [summaryPre ++ shortStats ⟨0, true⟩]
        else []) := by
  cases macroSum <;>
    simp [test, testLoop, calculateStats, PrecisionRecall.init, hashAdd, fullStats]

/-- C2 (counterexample): `test` does not unwrap a rich classification
result — with a classifier returning `(classes = ["A"], explanations = 1)`,
the value recorded into the accumulator is that whole structure, which is
not the classes sequence `["A"]`. -/
theorem test_records_raw_result_cex :
    (test cexClassify [cexSample] 0 none none).1.recorded =
        {(["A"], ClassificationResult.explained ["A"] (.scalar (.snum 1)))} ∧
      (test cexClassify [cexSample] 0 none none).1.recorded ≠
        {(["A"], ClassificationResult.plain ["A"])} := by
  constructor <;> decide

/-- C2 (amended): for every sample, `test` records the classifier's raw
return value as the actual label set, without unwrapping — a richer
`(classes, explanations)` structure is recorded whole. -/
theorem test_recorded_raw (classify : JsVal → Option Int → ClassificationResult)
    (testSet : List Sample) (v : Int) (micro macroSum : Option PrecisionRecall) :
    (test classify testSet v micro macroSum).1.recorded =
      ↑(testSet.map fun s => (normalizeClasses s.output, classify s.input none)) := by
  rw [test_stats]

/-- C4: the finalized aggregate statistics of `test` — the local accumulator
as well as the updated micro-average and macro-sum accumulators — are
identical for a test set and any permutation of it (per-case accumulation in
the Outcome Recorder model being order-independent); order affects only the
diagnostic output. -/
theorem test_perm_stats (classify : JsVal → Option Int → ClassificationResult)
    (l l' : List Sample) (h : l.Perm l') (v : Int) (micro macroSum : Option PrecisionRecall) :
    (test classify l v micro macroSum).1 = (test classify l' v micro macroSum).1 ∧
      (test classify l v micro macroSum).2.1 = (test classify l' v micro macroSum).2.1 ∧
      (test classify l v micro macroSum).2.2.1 = (test classify l' v micro macroSum).2.2.1 := by
  have hm : (↑(l.map fun s => (normalizeClasses s.output, classify s.input none)) :
      Multiset (List String × ClassificationResult)) =
        ↑(l'.map fun s => (normalizeClasses s.output, classify s.input none)) :=
    Multiset.coe_eq_coe.mpr (h.map _)
  refine ⟨?_, ?_, ?_⟩
  · rw [test_stats, test_stats, hm]
  · rw [test_micro, test_micro, hm]
  · rw [test_macroSum, test_macroSum, hm]

/-- Witness for C4 at a concrete two-sample test set and its swap. -/
theorem test_perm_stats_witness :
    ([cexSample, cexSample2] : List Sample).Perm [cexSample2, cexSample] ∧
      (test wClassify [cexSample, cexSample2] 1 none none).1 =
        (test wClassify [cexSample2, cexSample] 1 none none).1 :=
  ⟨List.Perm.swap _ _ _,
    (test_perm_stats wClassify [cexSample, cexSample2] [cexSample2, cexSample]
      (List.Perm.swap _ _ _) 1 none none).1⟩

theorem c1line_ne_c2line : classifier1CorrectLine ≠ classifier2CorrectLine := by
  decide

theorem c1line_ne_bothline : classifier1CorrectLine ≠ bothIncorrectLine := by
  decide

theorem c2line_ne_bothline : classifier2CorrectLine ≠ bothIncorrectLine := by
  decide

/-- C3: on a sample where the two sorted class sequences differ, `compare`
prints the divergence line followed by exactly one verdict line, and the
verdict is "Classifier1 is correct" iff classifier1's sorted output equals
the expected set, "Classifier2 is correct" iff classifier1's does not but
classifier2's does, and "both are incorrect" iff neither matches — the three
branches being exhaustive and mutually exclusive. -/
theorem compareSample_divergence_trichotomy (explain : Int) (expectedClasses : List String)
    (input : JsVal) (r1 r2 : ClassificationResult) (c1 c2 : List String)
    (h1 : unwrapCompare explain r1 = some c1) (h2 : unwrapCompare explain r2 = some c2)
    (hne : jsSort c1 ≠ jsSort c2) :
    ∃ v, compareSample explain expectedClasses input r1 r2 =
        some [divergenceLine explain input r1 r2 (jsSort c1) (jsSort c2), v] ∧
      (v = classifier1CorrectLine ∨ v = classifier2CorrectLine ∨ v = bothIncorrectLine) ∧
      (v = classifier1CorrectLine ↔ jsSort c1 = expectedClasses) ∧
      (v = classifier2CorrectLine ↔
        jsSort c1 ≠ expectedClasses ∧ jsSort c2 = expectedClasses) ∧
      (v = bothIncorrectLine ↔
        jsSort c1 ≠ expectedClasses ∧ jsSort c2 ≠ expectedClasses) := by
  refine ⟨if jsSort c1 = expectedClasses then classifier1CorrectLine
    else if jsSort c2 = expectedClasses then classifier2CorrectLine
    else bothIncorrectLine, ?_, ?_, ?_, ?_, ?_⟩
  · unfold compareSample
    rw [h1, h2]
    simp [hne]
  all_goals
    by_cases hA : jsSort c1 = expectedClasses <;>
      by_cases hB : jsSort c2 = expectedClasses <;>
        simp [hA, hB, c1line_ne_c2line, c1line_ne_bothline, c2line_ne_bothline,
          c1line_ne_c2line.symm, c1line_ne_bothline.symm, c2line_ne_bothline.symm]

/-- Witness for C3 at a concrete diverging sample. -/
theorem compareSample_divergence_trichotomy_witness :
    unwrapCompare 0 (ClassificationResult.plain ["A"]) = some ["A"] ∧
      unwrapCompare 0 (ClassificationResult.plain ["B"]) = some ["B"] ∧
      jsSort ["A"] ≠ jsSort ["B"] ∧
      ∃ v, compareSample 0 ["A"] cexSample.input (ClassificationResult.plain ["A"])
          (ClassificationResult.plain ["B"]) =
          some [divergenceLine 0 cexSample.input (ClassificationResult.plain ["A"])
            (ClassificationResult.plain ["B"]) (jsSort ["A"]) (jsSort ["B"]), v] ∧
        (v = classifier1CorrectLine ∨ v = classifier2CorrectLine ∨ v = bothIncorrectLine) ∧
        (v = classifier1CorrectLine ↔ jsSort ["A"] = ["A"]) ∧
        (v = classifier2CorrectLine ↔ jsSort ["A"] ≠ ["A"] ∧ jsSort ["B"] = ["A"]) ∧
        (v = bothIncorrectLine ↔ jsSort ["A"] ≠ ["A"] ∧ jsSort ["B"] ≠ ["A"]) :=
  ⟨by decide, by decide, by decide,
    compareSample_divergence_trichotomy 0 ["A"] cexSample.input
      (ClassificationResult.plain ["A"]) (ClassificationResult.plain ["B"]) ["A"] ["B"]
      (by decide) (by decide) (by decide)⟩

/-- C7: on a sample where the two sorted class sequences are element-wise
equal, `compare` emits no output for that sample, regardless of whether the
shared output matches the expected label set. -/
theorem compareSample_agree_silent (explain : Int) (expectedClasses : List String)
    (input : JsVal) (r1 r2 : ClassificationResult) (c1 c2 : List String)
    (h1 : unwrapCompare explain r1 = some c1) (h2 : unwrapCompare explain r2 = some c2)
    (heq : jsSort c1 = jsSort c2) :
    compareSample explain expectedClasses input r1 r2 = some [] := by
  unfold compareSample
  rw [h1, h2]
  simp [heq]

/-- Witness for C7: both classifiers answer `["A"]` while the expected set
is `["B"]` — agreement with each other, disagreement with the truth — and
no line is emitted. -/
theorem compareSample_agree_silent_witness :
    unwrapCompare 0 (ClassificationResult.plain ["A"]) = some ["A"] ∧
      jsSort ["A"] = jsSort ["A"] ∧
      compareSample 0 ["B"] cexSample.input (ClassificationResult.plain ["A"])
        (ClassificationResult.plain ["A"]) = some [] :=
  ⟨by decide, rfl,
    compareSample_agree_silent 0 ["B"] cexSample.input (ClassificationResult.plain ["A"])
      (ClassificationResult.plain ["A"]) ["A"] ["A"] (by decide) (by decide) rfl⟩

theorem testLiteLoop_spec (classify : JsVal → Option Int → ClassificationResult) (explain : Int) :
    ∀ (l : List Sample) (stats : PrecisionRecall),
      testLiteLoop classify explain l stats =
        (⟨stats.recorded + ↑(l.map fun s =>
            (normalizeClasses s.output,
              ClassificationResult.plain (jsSort (unwrapLite (classify s.input (some explain)))))),
          stats.finalized⟩,
         (l.map fun s =>
            if normalizeClasses s.output = jsSort (unwrapLite (classify s.input (some explain)))
            then []
            else [liteMismatchLine explain s.input (normalizeClasses s.output)
              (classify s.input (some explain))
              (jsSort (unwrapLite (classify s.input (some explain))))]).flatten)
  | [], stats => by
    simp [testLiteLoop]
  | s :: rest, stats => by
    simp only [testLiteLoop, addCases, List.map_cons, List.flatten_cons]
    rw [testLiteLoop_spec classify explain rest _]
    refine Prod.ext ?_ rfl
    simp only [← Multiset.cons_coe, ← Multiset.singleton_add]
    congr 1
    rw [add_assoc, add_left_comm]

/-- C8: `testLite` normalizes each expected output, unwraps the `classes`
field of the classifier result when present, sorts the actual classes,
always records the (expected, sorted actual) pair into its local
accumulator, prints a mismatch line exactly for the samples whose normalized
expected sequence differs from the sorted actual sequence (the line carrying
the full result payload when `explain` is truthy, via `liteMismatchLine`),
and prints the one-line summary after the loop. -/
theorem testLite_spec (classify : JsVal → Option Int → ClassificationResult)
    (dataset : List Sample) (explain : Int) :
    (testLite classify dataset explain).1.recorded =
        ↑(dataset.map fun s =>
          (normalizeClasses s.output,
            ClassificationResult.plain (jsSort (unwrapLite (classify s.input (some explain)))))) ∧
      (testLite classify dataset explain).1.finalized = true ∧
      (testLite classify dataset explain).2 =
        (dataset.map fun s =>
          if normalizeClasses s.output = jsSort (unwrapLite (classify s.input (some explain)))
          then []
          else [liteMismatchLine explain s.input (normalizeClasses s.output)
            (classify s.input (some explain))
            (jsSort (unwrapLite (classify s.input (some explain))))]).flatten ++
          [summaryPre ++ shortStats (testLite classify dataset explain).1] := by
  simp [testLite, testLiteLoop_spec, calculateStats, PrecisionRecall.init]

/-- C9: `testLite` and `compare` sort the classifier-returned class array in
place — after the sorting step the very array the classifier returned (or
its `classes` field) holds the sorted contents, and no other array changes —
while `normalizeClasses` maps into a freshly allocated array before
sorting, leaving every pre-existing array, in particular the caller's
`sample.output` array, unchanged and returning a reference distinct from
its argument. -/
theorem sort_mutates_normalize_allocates :
    (∀ (st : Store) (res : HResult), hClassesOf res < st.length →
      (testLiteSortStep st res).1.getD (hClassesOf res) [] =
          jsSort (st.getD (hClassesOf res) []) ∧
        ∀ r' : ArrRef, r' ≠ hClassesOf res →
          (testLiteSortStep st res).1.getD r' [] = st.getD r' []) ∧
    (∀ (explainT : Bool) (st : Store) (res1 res2 : HResult) (st' : Store) (r1 r2 : ArrRef),
      compareSortSteps explainT st res1 res2 = some (st', r1, r2) → r1 ≠ r2 →
        r1 < st.length → r2 < st.length →
        st'.getD r1 [] = jsSort (st.getD r1 []) ∧
          st'.getD r2 [] = jsSort (st.getD r2 []) ∧
          ∀ r' : ArrRef, r' ≠ r1 → r' ≠ r2 → st'.getD r' [] = st.getD r' []) ∧
    (∀ (st : Store) (v : HVal) (r' : ArrRef), r' < st.length →
      (normalizeClassesH st v).1.getD r' [] = st.getD r' []) ∧
    (∀ (st : Store) (r : ArrRef), r < st.length →
      (normalizeClassesH st (HVal.array r)).2 ≠ r ∧
        (normalizeClassesH st (HVal.array r)).1.getD r [] = st.getD r []) := by
  have hfresh : ∀ (st : Store) (v : HVal) (r' : ArrRef), r' < st.length →
      (normalizeClassesH st v).1.getD r' [] = st.getD r' [] := by
    intro st v r' h
    simp [normalizeClassesH, List.getD_eq_getElem?_getD, List.getElem?_append_left h]
  refine ⟨?_, ?_, hfresh, ?_⟩
  · intro st res h
    constructor
    · simp [testLiteSortStep, sortInPlace, List.getD_eq_getElem?_getD,
        List.getElem?_set_self', h]
    · intro r' hr'
      simp [testLiteSortStep, sortInPlace, List.getD_eq_getElem?_getD,
        List.getElem?_set_ne (Ne.symm hr')]
  · intro explainT st res1 res2 st' r1 r2 heq hne h1 h2
    unfold compareSortSteps at heq
    cases hu1 : hUnwrapCompare explainT res1 with
    | none =>
      rw [hu1] at heq
      cases heq
    | some a =>
      cases hu2 : hUnwrapCompare explainT res2 with
      | none =>
        rw [hu1, hu2] at heq
        cases heq
      | some b =>
        rw [hu1, hu2] at heq
        simp only [Option.some.injEq, Prod.mk.injEq] at heq
        obtain ⟨hst, ha, hb⟩ := heq
        subst ha
        subst hb
        subst hst
        refine ⟨?_, ?_, ?_⟩
        · simp [sortInPlace, List.getD_eq_getElem?_getD, List.getElem?_set_ne (Ne.symm hne),
            List.getElem?_set_self', List.getElem?_eq_getElem h1]
        · simp [sortInPlace, List.getD_eq_getElem?_getD, List.getElem?_set_self',
            List.getElem?_set_ne hne, List.getElem?_eq_getElem h2]
        · intro r' hr1 hr2
          simp [sortInPlace, List.getD_eq_getElem?_getD,
            List.getElem?_set_ne (Ne.symm hr2), List.getElem?_set_ne (Ne.symm hr1)]
  · intro st r h
    exact ⟨ne_of_gt h, hfresh st (HVal.array r) r h⟩

/-- Witness for C9 on a concrete store holding the unsorted array
`["b", "a"]`: the testLite sort step overwrites the classifier's array with
its sorted contents, while normalization leaves it untouched. -/
theorem sort_mutates_normalize_allocates_witness :
    hClassesOf (HResult.plain 0) < ([["b", "a"]] : Store).length ∧
      (testLiteSortStep [["b", "a"]] (HResult.plain 0)).1.getD (hClassesOf (HResult.plain 0)) [] =
        jsSort (([["b", "a"]] : Store).getD (hClassesOf (HResult.plain 0)) []) ∧
      (normalizeClassesH [["b", "a"]] (HVal.array 0)).1.getD 0 [] =
        ([["b", "a"]] : Store).getD 0 [] ∧
      (normalizeClassesH [["b", "a"]] (HVal.array 0)).2 ≠ 0 :=
  ⟨by decide,
    (sort_mutates_normalize_allocates.1 [["b", "a"]] (HResult.plain 0) (by decide)).1,
    sort_mutates_normalize_allocates.2.2.1 [["b", "a"]] (HVal.array 0) 0 (by decide),
    (sort_mutates_normalize_allocates.2.2.2 [["b", "a"]] 0 (by decide)).1⟩

/-- C10: `trainAndCompare` trains both classifiers on the training set and
invokes `compare` on the test set with its `verbosity` argument forwarded as
`compare`'s `explain` flag (so each `classify` call inside `compare`
receives it); whenever that flag is truthy, `compare`'s unwrapping takes the
`classes` field of each classification result (and a bare array, having no
such field, faults).  `trainAndCompare` returns `compare`'s result, which
carries no aggregate statistics. -/
theorem trainAndCompare_forwards_verbosity (f1 f2 : ClassifierFactory)
    (trainSet testSet : List Sample) (v : Int) :
    (trainAndCompare f1 f2 trainSet testSet v).2 =
        compare (f1.trainedClassify trainSet) (f2.trainedClassify trainSet) testSet v ∧
      (v ≠ 0 → ∀ (cs : List String) (e : JsVal),
        unwrapCompare v (ClassificationResult.explained cs e) = some cs ∧
          unwrapCompare v (ClassificationResult.plain cs) = none) :=
  ⟨rfl, fun hv cs e => by simp [unwrapCompare, hv]⟩

/-- Witness for C10 at a concrete pair of factories and truthy verbosity. -/
theorem trainAndCompare_forwards_verbosity_witness :
    (trainAndCompare wFactory wFactory [] [cexSample] 1).2 =
        compare (wFactory.trainedClassify []) (wFactory.trainedClassify []) [cexSample] 1 ∧
      (1 : Int) ≠ 0 ∧
      unwrapCompare 1 (ClassificationResult.explained ["A"] (.scalar (.snum 0))) = some ["A"] :=
  ⟨(trainAndCompare_forwards_verbosity wFactory wFactory [] [cexSample] 1).1,
    by decide,
    ((trainAndCompare_forwards_verbosity wFactory wFactory [] [cexSample] 1).2 (by decide)
      ["A"] (.scalar (.snum 0))).1⟩

end Limdu
